import Mathlib

/-!
Verification development for the Envio token-trending service
(`src/apps/Envio/src/index.ts`).

JavaScript numbers are modelled as rationals (`ℚ`), rounding as
`Math.round`'s half-up rule, fallible awaited calls as `Except`/`Bool`
oracles packaged in an environment record, and the Redis cache as a
function from string keys to optional records.
-/

/-- Metrics bag produced by `OnChainAggregator.analyzeOnChain` and consumed
by `calculateTrendingScore` (index.ts lines 35-54).  The source destructures
the bag with defaults; the aggregator supplies every field, so the model
keeps all six fields total. -/
structure TokenMetrics where
  activityScore : ℚ
  liquidityHealthScore : ℚ
  momentumScore : ℚ
  distributionScore : ℚ
  buyVsSellRatio : ℚ
  priceChange24h : ℚ
deriving DecidableEq

/-- JavaScript `Math.round`: round half toward positive infinity. -/
def jsRound (q : ℚ) : ℤ := ⌊q + 1/2⌋

/-- The weighted sum built in `calculateTrendingScore` (index.ts lines 45-51):
`activity*0.25 + liquidity*0.2 + distribution*0.15 + momentum*0.1 +
Math.min(buyVsSellRatio,100)*0.1 + Math.max(priceChange24h,-100)/2`. -/
def rawTrendingScore (m : TokenMetrics) : ℚ :=
  m.activityScore * 0.25 +
  m.liquidityHealthScore * 0.2 +
  m.distributionScore * 0.15 +
  m.momentumScore * 0.1 +
  min m.buyVsSellRatio 100 * 0.1 +
  max m.priceChange24h (-100) / 2

/-- `calculateTrendingScore` (index.ts line 53):
`Math.max(0, Math.min(100, Math.round(score)))`. -/
def calculateTrendingScore (m : TokenMetrics) : ℤ :=
  max 0 (min 100 (jsRound (rawTrendingScore m)))

/-- Modelled from the spec's words (section 4.4): the composite formula with
the round applied to the clamped sum, `round(clamp(sum, 0, 100))`; written
only to be compared against the code's `calculateTrendingScore`. -/
def specCompositeScore (m : TokenMetrics) : ℤ :=
  jsRound (max 0 (min 100 (rawTrendingScore m)))

theorem jsRound_mono {q r : ℚ} (h : q ≤ r) : jsRound q ≤ jsRound r :=
  Int.floor_le_floor (by linarith)

theorem jsRound_zero : jsRound 0 = 0 := by
  norm_num [jsRound, Int.floor_eq_iff]

theorem jsRound_hundred : jsRound 100 = 100 := by
  have : (100 : ℚ) + 1/2 = 100 + (1/2 : ℚ) := rfl
  norm_num [jsRound, Int.floor_eq_iff]

/-- Clamping to the integer interval `[0, 100]` commutes with half-up
rounding: the code's `clamp(round(s))` coincides with the spec's
`round(clamp(s))`. -/
theorem clamp_round_comm (q : ℚ) :
    max 0 (min 100 (jsRound q)) = jsRound (max 0 (min 100 q)) := by
  rcases le_total q 0 with h0 | h0
  · have hr : jsRound q ≤ 0 := jsRound_zero ▸ jsRound_mono h0
    have h100 : q ≤ 100 := le_trans h0 (by norm_num)
    rw [min_eq_right h100, max_eq_left h0, jsRound_zero]
    omega
  · rcases le_total q 100 with h1 | h1
    · have hlo : 0 ≤ jsRound q := jsRound_zero ▸ jsRound_mono h0
      have hhi : jsRound q ≤ 100 := jsRound_hundred ▸ jsRound_mono h1
      rw [min_eq_right h1, max_eq_right h0]
      omega
    · have hr : 100 ≤ jsRound q := jsRound_hundred ▸ jsRound_mono h1
      rw [min_eq_left h1, max_eq_right (by norm_num : (0:ℚ) ≤ 100), jsRound_hundred]
      omega

/-- The spec's worked example metrics: activity 80, liquidity 50,
distribution 60, momentum 30, buy/sell 2, price change 10. -/
def exampleMetrics : TokenMetrics :=
  { activityScore := 80, liquidityHealthScore := 50, momentumScore := 30,
    distributionScore := 60, buyVsSellRatio := 2, priceChange24h := 10 }

theorem rawTrendingScore_example : rawTrendingScore exampleMetrics = 236/5 := by
  rw [rawTrendingScore]
  norm_num [exampleMetrics, min_def, max_def]

theorem jsRound_example : jsRound (236/5 : ℚ) = 47 := by
  rw [jsRound, Int.floor_eq_iff]
  norm_num

theorem calculateTrendingScore_example : calculateTrendingScore exampleMetrics = 47 := by
  rw [calculateTrendingScore, rawTrendingScore_example, jsRound_example]
  norm_num

/-- `TokenAddress` (multichain/multichain-address.ts, as used by index.ts):
a discovered token record. -/
structure TokenAddress where
  address : String
  chainId : ℤ
  chainName : String
  firstSeenBlock : ℤ
  firstSeenTimestamp : ℤ
  ageInHours : ℚ
  transactionHash : String
deriving DecidableEq

/-- One transfer/approval event returned by `getAllTokenTransactions`; the
batch pipeline only inspects the list's length and hands the list to the
aggregator, so a minimal field set suffices. -/
structure Transaction where
  chainId : ℤ
  txFrom : String
  txTo : String
  value : ℚ
deriving DecidableEq

/-- Result of the external `metadata` call; the pipeline only tests it for
truthiness and hands it to the aggregator. -/
structure TokenData where
  priceChange24h : ℚ
deriving DecidableEq

/-- The metrics subset stored inside a cached record (index.ts lines 127-133). -/
structure StoredMetrics where
  activityScore : ℚ
  liquidityHealthScore : ℚ
  momentumScore : ℚ
  distributionScore : ℚ
  buyVsSellRatio : ℚ
deriving DecidableEq

/-- The JSON value written by `client.set` (index.ts lines 116-135). -/
structure CachedTokenRecord where
  address : String
  chainId : ℤ
  chainName : String
  trendingscore : ℤ
  block : ℤ
  timestamp : ℤ
  ageInHours : ℚ
  lastUpdated : ℤ
  metrics : StoredMetrics
deriving DecidableEq

/-- Oracles for the awaited external collaborators of one batch pass.
`getThrows`/`setThrows` make `client.get`/`client.set` throw for a key;
`fetchTx` is `getAllTokenTransactions`, `fetchMeta` is `metadata` (an
`Except.error` models a thrown fault, `Except.ok none` a null result);
`analyze` is the fresh `OnChainAggregator` pipeline
(`addTransactions`/`addTokenData`/`analyzeOnChain`); `now` is `Date.now()`. -/
structure Env where
  getThrows : String → Bool
  fetchTx : String → Except Unit (List Transaction)
  fetchMeta : String → Except Unit (Option TokenData)
  analyze : List Transaction → TokenData → TokenMetrics
  setThrows : String → Bool
  now : ℤ

/-- Observable external actions of one batch pass, in program order:
cache reads, the two fetches, cache writes, and the bounded failure log. -/
inductive CallEvent where
  | cacheGet (a : String)
  | txFetch (a : String)
  | metaFetch (a : String)
  | cacheSet (a : String)
  | logFail (a : String)
deriving DecidableEq

/-- Mutable state of one `analyzeAndStoreTokens` run: the Redis contents
keyed by token address, the five counters (index.ts lines 64-68), and the
trace of external actions performed so far. -/
structure BatchState where
  cache : String → Option CachedTokenRecord
  processed : ℕ
  updated : ℕ
  skipped : ℕ
  noData : ℕ
  failed : ℕ
  trace : List CallEvent

def initState (cache₀ : String → Option CachedTokenRecord) : BatchState :=
  { cache := cache₀, processed := 0, updated := 0, skipped := 0,
    noData := 0, failed := 0, trace := [] }

/-- The record stored on a successful scoring pass (index.ts lines 116-135). -/
def mkRecord (env : Env) (t : TokenAddress) (m : TokenMetrics) : CachedTokenRecord :=
  { address := t.address, chainId := t.chainId, chainName := t.chainName,
    trendingscore := calculateTrendingScore m,
    block := t.firstSeenBlock, timestamp := t.firstSeenTimestamp,
    ageInHours := t.ageInHours, lastUpdated := env.now,
    metrics := { activityScore := m.activityScore,
                 liquidityHealthScore := m.liquidityHealthScore,
                 momentumScore := m.momentumScore,
                 distributionScore := m.distributionScore,
                 buyVsSellRatio := m.buyVsSellRatio } }

/-- How one token's pipeline ends: the four counter outcomes of
index.ts lines 74-146 (an `updated` outcome carries the record written). -/
inductive Outcome where
  | updatedO (r : CachedTokenRecord)
  | skippedO
  | noDataO
  | failedO
deriving DecidableEq

/-- A pipeline outcome together with the external calls it performed. -/
structure StepResult where
  outcome : Outcome
  calls : List CallEvent
deriving DecidableEq

/-- The result of one token's pipeline body (index.ts lines 74-137), as a
pure function of the Redis contents seen by its `client.get` and of the
collaborator oracles: cache existence check, skip when present and not
forced, transaction fetch then metadata fetch, the two no-data checks, the
fresh aggregator pass, and the cache write; every throw yields `failedO`. -/
def runPipeline (env : Env) (forceUpdate : Bool)
    (cache : String → Option CachedTokenRecord) (t : TokenAddress) : StepResult :=
  if env.getThrows t.address then ⟨Outcome.failedO, [CallEvent.cacheGet t.address]⟩
  else if (cache t.address).isSome && !forceUpdate then
    ⟨Outcome.skippedO, [CallEvent.cacheGet t.address]⟩
  else
    match env.fetchTx t.address with
    | Except.error _ =>
      ⟨Outcome.failedO, [CallEvent.cacheGet t.address, CallEvent.txFetch t.address]⟩
    | Except.ok txs =>
      match env.fetchMeta t.address with
      | Except.error _ =>
        ⟨Outcome.failedO,
          [CallEvent.cacheGet t.address, CallEvent.txFetch t.address,
            CallEvent.metaFetch t.address]⟩
      | Except.ok analysis =>
        if txs.isEmpty then
          ⟨Outcome.noDataO,
            [CallEvent.cacheGet t.address, CallEvent.txFetch t.address,
              CallEvent.metaFetch t.address]⟩
        else
          match analysis with
          | none =>
            ⟨Outcome.noDataO,
              [CallEvent.cacheGet t.address, CallEvent.txFetch t.address,
                CallEvent.metaFetch t.address]⟩
          | some tokenData =>
            if env.setThrows t.address then
              ⟨Outcome.failedO,
                [CallEvent.cacheGet t.address, CallEvent.txFetch t.address,
                  CallEvent.metaFetch t.address, CallEvent.cacheSet t.address]⟩
            else
              ⟨Outcome.updatedO (mkRecord env t (env.analyze txs tokenData)),
                [CallEvent.cacheGet t.address, CallEvent.txFetch t.address,
                  CallEvent.metaFetch t.address, CallEvent.cacheSet t.address]⟩

/-- Fold a pipeline result into the batch state: the counter increments of
index.ts lines 80, 90, 96, 137 and 139, the cache write of lines 116-135,
the bounded failure log of lines 140-142 (only while the incremented
`failed` counter is at most 5), and the `finally` increment of `processed`. -/
def applyStep (s : BatchState) (t : TokenAddress) (res : StepResult) : BatchState :=
  match res.outcome with
  | Outcome.updatedO r =>
    { s with cache := fun x => if x = t.address then some r else s.cache x,
             updated := s.updated + 1, processed := s.processed + 1,
             trace := s.trace ++ res.calls }
  | Outcome.skippedO =>
    { s with skipped := s.skipped + 1, processed := s.processed + 1,
             trace := s.trace ++ res.calls }
  | Outcome.noDataO =>
    { s with noData := s.noData + 1, processed := s.processed + 1,
             trace := s.trace ++ res.calls }
  | Outcome.failedO =>
    { s with failed := s.failed + 1, processed := s.processed + 1,
             trace := s.trace ++ res.calls ++
               (if s.failed + 1 ≤ 5 then [CallEvent.logFail t.address] else []) }

/-- One token's pipeline (index.ts lines 74-146), acting on the batch state. -/
def processOne (env : Env) (forceUpdate : Bool) (s : BatchState) (t : TokenAddress) :
    BatchState :=
  applyStep s t (runPipeline env forceUpdate s.cache t)

/-- Number of failure-log lines in a trace. -/
def countLogFails (tr : List CallEvent) : ℕ :=
  (tr.filter fun e => match e with | CallEvent.logFail _ => true | _ => false).length

/-- `tokens.slice(i, i + concurrency)` chunking of the batch loop
(index.ts line 71-72), recursing on an explicit bound that equals the list
length at the top-level call; for a positive chunk size the bound never
runs out, and the JavaScript loop diverges for `concurrency = 0`, so every
theorem below assumes a positive concurrency. -/
def chunksOfAux (c : ℕ) : ℕ → List TokenAddress → List (List TokenAddress)
  | _, [] => []
  | 0, l => [l]
  | n + 1, x :: xs => ((x :: xs).take c) :: chunksOfAux c n ((x :: xs).drop c)

def chunksOf (c : ℕ) (l : List TokenAddress) : List (List TokenAddress) :=
  chunksOfAux c l.length l

/-- `analyzeAndStoreTokens` (index.ts lines 57-157): fold the per-token
pipeline over consecutive chunks of `concurrency` tokens, starting from the
given initial Redis contents and zeroed counters. -/
def analyzeAndStoreTokens (env : Env) (cache₀ : String → Option CachedTokenRecord)
    (tokens : List TokenAddress) (forceUpdate : Bool) (concurrency : ℕ) : BatchState :=
  (chunksOf concurrency tokens).foldl
    (fun s batch => batch.foldl (processOne env forceUpdate) s)
    (initState cache₀)

theorem chunksOfAux_flatten (c : ℕ) (hc : 0 < c) :
    ∀ (n : ℕ) (l : List TokenAddress), l.length ≤ n →
      (chunksOfAux c n l).flatten = l := by
  intro n
  induction n with
  | zero =>
    intro l hl
    have : l = [] := List.length_eq_zero.mp (Nat.le_zero.mp hl)
    subst this
    rfl
  | succ n ih =>
    intro l hl
    match l with
    | [] => rfl
    | x :: xs =>
      have hdrop : ((x :: xs).drop c).length ≤ n := by
        rw [List.length_drop]
        have : 0 < (x :: xs).length := by simp
        omega
      calc (chunksOfAux c (n + 1) (x :: xs)).flatten
          = (x :: xs).take c ++ (chunksOfAux c n ((x :: xs).drop c)).flatten := by
            rw [chunksOfAux]; simp
        _ = (x :: xs).take c ++ (x :: xs).drop c := by rw [ih _ hdrop]
        _ = x :: xs := List.take_append_drop c (x :: xs)

theorem chunksOf_flatten {c : ℕ} (hc : 0 < c) (l : List TokenAddress) :
    (chunksOf c l).flatten = l :=
  chunksOfAux_flatten c hc l.length l (Nat.le_refl _)

theorem analyzeAndStoreTokens_eq_foldl (env : Env) (cache₀ : String → Option CachedTokenRecord)
    (tokens : List TokenAddress) (forceUpdate : Bool) {c : ℕ} (hc : 0 < c) :
    analyzeAndStoreTokens env cache₀ tokens forceUpdate c =
      tokens.foldl (processOne env forceUpdate) (initState cache₀) := by
  rw [analyzeAndStoreTokens, ← List.foldl_flatten, chunksOf_flatten hc]

theorem processOne_processed (env : Env) (f : Bool) (s : BatchState) (t : TokenAddress) :
    (processOne env f s t).processed = s.processed + 1 := by
  unfold processOne applyStep
  cases h : (runPipeline env f s.cache t).outcome <;> simp [h]

theorem processOne_counts (env : Env) (f : Bool) (s : BatchState) (t : TokenAddress) :
    (processOne env f s t).updated + (processOne env f s t).skipped +
      (processOne env f s t).noData + (processOne env f s t).failed =
    s.updated + s.skipped + s.noData + s.failed + 1 := by
  unfold processOne applyStep
  cases h : (runPipeline env f s.cache t).outcome <;> simp [h] <;> omega

theorem foldl_processOne_counts (env : Env) (f : Bool) :
    ∀ (l : List TokenAddress) (s : BatchState),
      ((l.foldl (processOne env f) s).processed = s.processed + l.length) ∧
      ((l.foldl (processOne env f) s).updated + (l.foldl (processOne env f) s).skipped +
        (l.foldl (processOne env f) s).noData + (l.foldl (processOne env f) s).failed =
        s.updated + s.skipped + s.noData + s.failed + l.length) := by
  intro l
  induction l with
  | nil => intro s; simp
  | cons t l ih =>
    intro s
    obtain ⟨h1, h2⟩ := ih (processOne env f s t)
    refine ⟨?_, ?_⟩
    · rw [List.foldl_cons, h1, processOne_processed]
      simp only [List.length_cons]
      omega
    · rw [List.foldl_cons, h2, processOne_counts]
      simp only [List.length_cons]
      omega

/-- C3: over any token list, force flag and positive concurrency, a
completed batch has `processed` equal to the number of tokens and equal to
`updated + skipped + noData + failed`; each single token raises `processed`
by exactly one and exactly one of the other four counters by exactly one. -/
theorem batch_counters_balance (env : Env) (cache₀ : String → Option CachedTokenRecord)
    (tokens : List TokenAddress) (forceUpdate : Bool) (c : ℕ) (hc : 0 < c) :
    (analyzeAndStoreTokens env cache₀ tokens forceUpdate c).processed = tokens.length ∧
    (analyzeAndStoreTokens env cache₀ tokens forceUpdate c).processed =
      (analyzeAndStoreTokens env cache₀ tokens forceUpdate c).updated +
      (analyzeAndStoreTokens env cache₀ tokens forceUpdate c).skipped +
      (analyzeAndStoreTokens env cache₀ tokens forceUpdate c).noData +
      (analyzeAndStoreTokens env cache₀ tokens forceUpdate c).failed ∧
    (∀ (s : BatchState) (t : TokenAddress),
      (processOne env forceUpdate s t).processed = s.processed + 1 ∧
      (processOne env forceUpdate s t).updated + (processOne env forceUpdate s t).skipped +
        (processOne env forceUpdate s t).noData + (processOne env forceUpdate s t).failed =
        s.updated + s.skipped + s.noData + s.failed + 1) := by
  rw [analyzeAndStoreTokens_eq_foldl env cache₀ tokens forceUpdate hc]
  obtain ⟨h1, h2⟩ := foldl_processOne_counts env forceUpdate tokens (initState cache₀)
  refine ⟨?_, ?_, fun s t => ⟨processOne_processed env forceUpdate s t,
    processOne_counts env forceUpdate s t⟩⟩
  · rw [h1]; simp [initState]
  · rw [h1, h2]; simp [initState]

theorem calculateTrendingScore_nonneg (m : TokenMetrics) : 0 ≤ calculateTrendingScore m :=
  le_max_left 0 _

theorem calculateTrendingScore_le_hundred (m : TokenMetrics) :
    calculateTrendingScore m ≤ 100 := by
  unfold calculateTrendingScore
  omega

/-- An updated outcome of `runPipeline` always carries a record built by
`mkRecord` from the aggregator's metrics. -/
theorem runPipeline_updatedO (env : Env) (f : Bool)
    (cache : String → Option CachedTokenRecord) (t : TokenAddress) (r : CachedTokenRecord) :
    (runPipeline env f cache t).outcome = Outcome.updatedO r → ∃ m, r = mkRecord env t m := by
  unfold runPipeline
  repeat' split
  all_goals intro h
  all_goals simp at h
  all_goals exact ⟨_, h.symm⟩

theorem processOne_cache_pointwise (env : Env) (f : Bool) (s : BatchState)
    (t : TokenAddress) (a : String) :
    (processOne env f s t).cache a = s.cache a ∨
      ∃ r, (processOne env f s t).cache a = some r ∧
        0 ≤ r.trendingscore ∧ r.trendingscore ≤ 100 := by
  unfold processOne applyStep
  cases ho : (runPipeline env f s.cache t).outcome with
  | updatedO r =>
    obtain ⟨m, hm⟩ := runPipeline_updatedO env f s.cache t r ho
    dsimp only
    by_cases ha : a = t.address
    · right
      subst hm
      exact ⟨mkRecord env t m, by rw [if_pos ha], calculateTrendingScore_nonneg m,
        calculateTrendingScore_le_hundred m⟩
    · left; rw [if_neg ha]
  | skippedO => left; rfl
  | noDataO => left; rfl
  | failedO => left; rfl

theorem foldl_cache_pointwise (env : Env) (f : Bool) :
    ∀ (l : List TokenAddress) (s : BatchState) (a : String),
      (l.foldl (processOne env f) s).cache a = s.cache a ∨
        ∃ r, (l.foldl (processOne env f) s).cache a = some r ∧
          0 ≤ r.trendingscore ∧ r.trendingscore ≤ 100 := by
  intro l
  induction l with
  | nil => intro s a; left; rfl
  | cons t l ih =>
    intro s a
    rw [List.foldl_cons]
    rcases ih (processOne env f s t) a with h | h
    · rcases processOne_cache_pointwise env f s t a with h2 | ⟨r, hr, hb1, hb2⟩
      · left; rw [h, h2]
      · right; exact ⟨r, by rw [h, hr], hb1, hb2⟩
    · right; exact h

theorem foldl2_cache_pointwise (env : Env) (f : Bool) :
    ∀ (ll : List (List TokenAddress)) (s : BatchState) (a : String),
      ((ll.foldl (fun s b => b.foldl (processOne env f) s) s).cache a = s.cache a) ∨
        ∃ r, (ll.foldl (fun s b => b.foldl (processOne env f) s) s).cache a = some r ∧
          0 ≤ r.trendingscore ∧ r.trendingscore ≤ 100 := by
  intro ll
  induction ll with
  | nil => intro s a; left; rfl
  | cons b ll ih =>
    intro s a
    rw [List.foldl_cons]
    rcases ih (b.foldl (processOne env f) s) a with h | h
    · rcases foldl_cache_pointwise env f b s a with h2 | ⟨r, hr, hb1, hb2⟩
      · left; rw [h, h2]
      · right; exact ⟨r, by rw [h, hr], hb1, hb2⟩
    · right; exact h

/-- C5: on a cache hit with `forceUpdate = false` (and a successful cache
read) the token is counted skipped exactly once and stops: no transaction
fetch, no metadata fetch, no cache write, no other counter change; the
trace only gains the cache read. -/
theorem cache_skip_policy (env : Env) (s : BatchState) (t : TokenAddress)
    (r : CachedTokenRecord)
    (hget : env.getThrows t.address = false)
    (hhit : s.cache t.address = some r) :
    processOne env false s t =
      { s with skipped := s.skipped + 1, processed := s.processed + 1,
               trace := s.trace ++ [CallEvent.cacheGet t.address] } := by
  unfold processOne runPipeline applyStep
  rw [hget, hhit]
  simp

/-- C6: a token whose transaction fetch returns zero events or whose
metadata fetch returns no data is counted `noData` (not `failed`) and
writes nothing to the cache: the state change is exactly the `noData` and
`processed` increments plus the three read calls in the trace. -/
theorem noData_policy (env : Env) (forceUpdate : Bool) (s : BatchState)
    (t : TokenAddress) (txs : List Transaction) (analysis : Option TokenData)
    (hget : env.getThrows t.address = false)
    (hreach : ((s.cache t.address).isSome && !forceUpdate) = false)
    (htx : env.fetchTx t.address = Except.ok txs)
    (hmeta : env.fetchMeta t.address = Except.ok analysis)
    (hnodata : txs = [] ∨ analysis = none) :
    processOne env forceUpdate s t =
      { s with noData := s.noData + 1, processed := s.processed + 1,
               trace := s.trace ++ [CallEvent.cacheGet t.address,
                 CallEvent.txFetch t.address, CallEvent.metaFetch t.address] } := by
  unfold processOne runPipeline applyStep
  rw [hget, hreach, htx, hmeta]
  rcases hnodata with h | h
  · subst h; simp
  · subst h
    by_cases he : txs.isEmpty <;> simp [he]

/-- A pipeline run that reaches the write (cache miss or forced, a
non-empty transaction list, present metadata, no throw anywhere) stores
`mkRecord` under the key `t.address` and counts the token updated. -/
theorem processOne_write (env : Env) (forceUpdate : Bool) (s : BatchState)
    (t : TokenAddress) (txs : List Transaction) (d : TokenData)
    (hget : env.getThrows t.address = false)
    (hskip : ((s.cache t.address).isSome && !forceUpdate) = false)
    (htx : env.fetchTx t.address = Except.ok txs)
    (hne : txs.isEmpty = false)
    (hmeta : env.fetchMeta t.address = Except.ok (some d))
    (hset : env.setThrows t.address = false) :
    processOne env forceUpdate s t =
      { s with
        cache := fun x => if x = t.address then some (mkRecord env t (env.analyze txs d))
                          else s.cache x,
        updated := s.updated + 1, processed := s.processed + 1,
        trace := s.trace ++ [CallEvent.cacheGet t.address, CallEvent.txFetch t.address,
          CallEvent.metaFetch t.address, CallEvent.cacheSet t.address] } := by
  unfold processOne runPipeline applyStep
  rw [hget, hskip, htx, hmeta]
  dsimp only
  rw [hne, hset]
  simp

/-- C9: the cache write uses the token's address alone as key, so two
tokens with equal addresses on different chains hit the same key: after two
successful forced passes the single record under that address is the second
token's record wholesale (carrying the second chain id), and no other key
is touched. -/
theorem cache_write_keyed_by_address (env : Env) (s : BatchState)
    (t₁ t₂ : TokenAddress) (txs : List Transaction) (d : TokenData)
    (haddr : t₂.address = t₁.address) (hchain : t₁.chainId ≠ t₂.chainId)
    (hget : env.getThrows t₁.address = false)
    (htx : env.fetchTx t₁.address = Except.ok txs)
    (hne : txs.isEmpty = false)
    (hmeta : env.fetchMeta t₁.address = Except.ok (some d))
    (hset : env.setThrows t₁.address = false) :
    (processOne env true s t₁).cache t₁.address =
        some (mkRecord env t₁ (env.analyze txs d)) ∧
    (processOne env true (processOne env true s t₁) t₂).cache t₁.address =
        some (mkRecord env t₂ (env.analyze txs d)) ∧
    (mkRecord env t₂ (env.analyze txs d)).chainId = t₂.chainId ∧
    (mkRecord env t₂ (env.analyze txs d)).chainId ≠ t₁.chainId ∧
    (∀ x, x ≠ t₁.address →
      (processOne env true (processOne env true s t₁) t₂).cache x = s.cache x) := by
  have h1 := processOne_write env true s t₁ txs d hget (by simp) htx hne hmeta hset
  have hget₂ : env.getThrows t₂.address = false := by rw [haddr]; exact hget
  have htx₂ : env.fetchTx t₂.address = Except.ok txs := by rw [haddr]; exact htx
  have hmeta₂ : env.fetchMeta t₂.address = Except.ok (some d) := by rw [haddr]; exact hmeta
  have hset₂ : env.setThrows t₂.address = false := by rw [haddr]; exact hset
  have h2 := processOne_write env true (processOne env true s t₁) t₂ txs d hget₂
    (by simp) htx₂ hne hmeta₂ hset₂
  refine ⟨?_, ?_, rfl, hchain.symm, ?_⟩
  · rw [h1]; simp
  · rw [h2]; simp [haddr]
  · intro x hx
    rw [h2, h1]
    have hx₂ : ¬x = t₂.address := by rw [haddr]; exact hx
    simp [hx, hx₂]

theorem countLogFails_append (tr1 tr2 : List CallEvent) :
    countLogFails (tr1 ++ tr2) = countLogFails tr1 + countLogFails tr2 := by
  unfold countLogFails
  rw [List.filter_append, List.length_append]

theorem countLogFails_nil : countLogFails [] = 0 := rfl

theorem countLogFails_logFail (a : String) : countLogFails [CallEvent.logFail a] = 1 := rfl

/-- The pipeline body itself never emits a failure-log event; the log line
is appended by the `catch` handler. -/
theorem runPipeline_calls_no_log (env : Env) (f : Bool)
    (cache : String → Option CachedTokenRecord) (t : TokenAddress) :
    countLogFails (runPipeline env f cache t).calls = 0 := by
  unfold runPipeline
  repeat' split
  all_goals simp [countLogFails]

theorem processOne_logcount (env : Env) (f : Bool) (s : BatchState) (t : TokenAddress)
    (h : countLogFails s.trace = min s.failed 5) :
    countLogFails (processOne env f s t).trace = min (processOne env f s t).failed 5 := by
  have hcalls := runPipeline_calls_no_log env f s.cache t
  unfold processOne applyStep
  cases ho : (runPipeline env f s.cache t).outcome
  all_goals dsimp only
  · rw [countLogFails_append, hcalls]; omega
  · rw [countLogFails_append, hcalls]; omega
  · rw [countLogFails_append, hcalls]; omega
  · rw [countLogFails_append, countLogFails_append, hcalls]
    by_cases h5 : s.failed + 1 ≤ 5
    · simp only [if_pos h5, countLogFails_logFail]; omega
    · simp only [if_neg h5, countLogFails_nil]; omega

theorem foldl_logcount (env : Env) (f : Bool) :
    ∀ (l : List TokenAddress) (s : BatchState),
      countLogFails s.trace = min s.failed 5 →
      countLogFails ((l.foldl (processOne env f) s)).trace =
        min ((l.foldl (processOne env f) s)).failed 5 := by
  intro l
  induction l with
  | nil => intro s h; exact h
  | cons t l ih =>
    intro s h
    rw [List.foldl_cons]
    exact ih (processOne env f s t) (processOne_logcount env f s t h)

theorem foldl2_logcount (env : Env) (f : Bool) :
    ∀ (ll : List (List TokenAddress)) (s : BatchState),
      countLogFails s.trace = min s.failed 5 →
      countLogFails ((ll.foldl (fun s b => b.foldl (processOne env f) s) s)).trace =
        min ((ll.foldl (fun s b => b.foldl (processOne env f) s) s)).failed 5 := by
  intro ll
  induction ll with
  | nil => intro s h; exact h
  | cons b ll ih =>
    intro s h
    rw [List.foldl_cons]
    exact ih (b.foldl (processOne env f) s) (foldl_logcount env f b s h)

theorem batch_logcount (env : Env) (cache₀ : String → Option CachedTokenRecord)
    (tokens : List TokenAddress) (forceUpdate : Bool) (c : ℕ) :
    countLogFails (analyzeAndStoreTokens env cache₀ tokens forceUpdate c).trace =
      min (analyzeAndStoreTokens env cache₀ tokens forceUpdate c).failed 5 := by
  apply foldl2_logcount
  simp [initState, countLogFails]

/-- C7: a thrown fault inside one token's pipeline is absorbed by that
token's task: `failed` rises by exactly one, the other outcome counters and
the cache are untouched, the fault is written to the log only while the
batch has at most five failures, and the batch never aborts: it still
processes every token, its final trace holding exactly `min failed 5`
failure log lines. -/
theorem per_token_failure_isolated (env : Env)
    (cache₀ : String → Option CachedTokenRecord) (tokens : List TokenAddress)
    (forceUpdate : Bool) (c : ℕ) (s : BatchState) (t : TokenAddress)
    (hc : 0 < c)
    (hthrow : (runPipeline env forceUpdate s.cache t).outcome = Outcome.failedO) :
    (processOne env forceUpdate s t).failed = s.failed + 1 ∧
    (processOne env forceUpdate s t).updated = s.updated ∧
    (processOne env forceUpdate s t).skipped = s.skipped ∧
    (processOne env forceUpdate s t).noData = s.noData ∧
    (processOne env forceUpdate s t).processed = s.processed + 1 ∧
    (processOne env forceUpdate s t).cache = s.cache ∧
    countLogFails (processOne env forceUpdate s t).trace =
      countLogFails s.trace + (if s.failed + 1 ≤ 5 then 1 else 0) ∧
    (analyzeAndStoreTokens env cache₀ tokens forceUpdate c).processed = tokens.length ∧
    countLogFails (analyzeAndStoreTokens env cache₀ tokens forceUpdate c).trace =
      min (analyzeAndStoreTokens env cache₀ tokens forceUpdate c).failed 5 := by
  have hcalls := runPipeline_calls_no_log env forceUpdate s.cache t
  refine ⟨?_, ?_, ?_, ?_, ?_, ?_, ?_,
    (batch_counters_balance env cache₀ tokens forceUpdate c hc).1,
    batch_logcount env cache₀ tokens forceUpdate c⟩
  all_goals unfold processOne applyStep
  all_goals rw [hthrow]
  all_goals dsimp only
  rw [countLogFails_append, countLogFails_append, hcalls]
  all_goals by_cases h5 : s.failed + 1 ≤ 5
  all_goals simp only [h5, if_true, if_false, countLogFails_logFail, countLogFails_nil]

/-- JavaScript `x || d` for an optional numeric `x` (absent, `null`, and
`NaN` are modelled as `none`): `0` is falsy, so it also selects the
default. -/
def jsOrDefault (v : Option ℚ) (d : ℚ) : ℚ :=
  match v with
  | none => d
  | some x => if x = 0 then d else x

/-- `req.body?.maxTokens || 5000` (index.ts line 325). -/
def dbinitMaxTokens (body : Option ℚ) : ℚ := jsOrDefault body 5000

/-- `req.body?.days || 30` (index.ts line 326). -/
def dbinitDays (body : Option ℚ) : ℚ := jsOrDefault body 30

/-- `req.body?.days || 2` (index.ts line 353). -/
def refreshDays (body : Option ℚ) : ℚ := jsOrDefault body 2

/-- `req.body?.maxTokens || 1000` (index.ts line 354). -/
def refreshMaxTokens (body : Option ℚ) : ℚ := jsOrDefault body 1000

/-- `req.body?.concurrency || 10` (index.ts line 379). -/
def updateAllConcurrency (body : Option ℚ) : ℚ := jsOrDefault body 10

/-- `req.body?.days || 1` (index.ts line 408). -/
def addNewDays (body : Option ℚ) : ℚ := jsOrDefault body 1

/-- `req.body?.maxNewTokens || 500` (index.ts line 409). -/
def addNewMaxNew (body : Option ℚ) : ℚ := jsOrDefault body 500

/-- `parseInt(req.query.limit as string) || 100` (index.ts line 429); a
missing or unparsable limit (`NaN`) is `none`. -/
def trendingLimit (parsed : Option ℚ) : ℚ := jsOrDefault parsed 100

/-- `allTokens.slice(0, maxTokens)` of `POST /dbinit` (index.ts line 329),
for the nonnegative integral counts the resolved parameter takes here. -/
def dbinitSelected (allTokens : List TokenAddress) (body : Option ℚ) : List TokenAddress :=
  allTokens.take (dbinitMaxTokens body).floor.toNat

/-- C2: `calculateTrendingScore` always lands in [0, 100], and hence after
any batch pass every cache entry it wrote (any entry differing from the
initial contents) stores a `trendingscore` in [0, 100]. -/
theorem trendingScore_always_bounded :
    (∀ m : TokenMetrics, 0 ≤ calculateTrendingScore m ∧ calculateTrendingScore m ≤ 100) ∧
    ∀ (env : Env) (cache₀ : String → Option CachedTokenRecord) (tokens : List TokenAddress)
      (forceUpdate : Bool) (c : ℕ) (a : String),
      (analyzeAndStoreTokens env cache₀ tokens forceUpdate c).cache a = cache₀ a ∨
        ∃ r, (analyzeAndStoreTokens env cache₀ tokens forceUpdate c).cache a = some r ∧
          0 ≤ r.trendingscore ∧ r.trendingscore ≤ 100 := by
  refine ⟨fun m => ⟨calculateTrendingScore_nonneg m, calculateTrendingScore_le_hundred m⟩,
    fun env cache₀ tokens forceUpdate c a => ?_⟩
  exact foldl2_cache_pointwise env forceUpdate (chunksOf c tokens) (initState cache₀) a

/-- C10: every numeric HTTP parameter is defaulted with `||`, so a caller
supplied 0 behaves exactly like an absent parameter: dbinit resolves to
5000 tokens over 30 days (and selects at most 5000 tokens), update-all runs
at concurrency 10, the trending listing caps at 100, refresh uses 2 days
and 1000 tokens, add-new uses 1 day and 500 tokens. -/
theorem falsy_zero_defaults :
    dbinitMaxTokens (some 0) = 5000 ∧ dbinitMaxTokens none = 5000 ∧
    dbinitDays (some 0) = 30 ∧ dbinitDays none = 30 ∧
    refreshDays (some 0) = 2 ∧ refreshMaxTokens (some 0) = 1000 ∧
    updateAllConcurrency (some 0) = 10 ∧ updateAllConcurrency none = 10 ∧
    addNewDays (some 0) = 1 ∧ addNewMaxNew (some 0) = 500 ∧
    trendingLimit (some 0) = 100 ∧ trendingLimit none = 100 ∧
    ∀ l : List TokenAddress, (dbinitSelected l (some 0)).length ≤ 5000 := by
  refine ⟨rfl, rfl, rfl, rfl, rfl, rfl, rfl, rfl, rfl, rfl, rfl, rfl, fun l => ?_⟩
  have hk : (dbinitMaxTokens (some 0)).floor.toNat = 5000 := rfl
  rw [dbinitSelected, hk, List.length_take]
  exact min_le_left _ _

/-- Oracles for the synchronous prelude of the background-triggered routes:
`fetchTokenAddressesMultichain` and `client.keys("*")`; an `Except.error`
models a thrown fault. -/
structure HttpEnv where
  discover : ℚ → Except Unit (List TokenAddress)
  cacheKeys : Except Unit (List String)

/-- Status code plus the `message` field of the JSON body. -/
structure HttpResponse where
  status : ℕ
  message : String
deriving DecidableEq

/-- `POST /dbinit` (index.ts lines 321-346): awaits discovery before
responding; a thrown discovery fault is caught and answered with 500. -/
def dbinitRoute (env : HttpEnv) (maxTokens days : Option ℚ) : HttpResponse :=
  match env.discover (dbinitDays days) with
  | Except.error _ => ⟨500, "Failed to initialize database"⟩
  | Except.ok _ => ⟨200, "Database initialization started"⟩

/-- `POST /refresh-tokens` (index.ts lines 349-374). -/
def refreshTokensRoute (env : HttpEnv) (days maxTokens : Option ℚ) : HttpResponse :=
  match env.discover (refreshDays days) with
  | Except.error _ => ⟨500, "Failed to refresh tokens"⟩
  | Except.ok _ => ⟨200, "Token refresh started"⟩

/-- `POST /update-all-scores` (index.ts lines 377-403): awaits the key
listing before responding; an empty cache answers 200 without starting
anything; a thrown cache fault answers 500. -/
def updateAllScoresRoute (env : HttpEnv) (concurrency : Option ℚ) : HttpResponse :=
  match env.cacheKeys with
  | Except.error _ => ⟨500, "Failed to update all scores"⟩
  | Except.ok keys =>
    if keys.length = 0 then ⟨200, "No tokens in database. Use /dbinit first."⟩
    else ⟨200, "Full database update started"⟩

/-- `POST /add-new-tokens` (index.ts lines 406-424): responds before any
awaited work, so it always acknowledges. -/
def addNewTokensRoute (env : HttpEnv) (days maxNewTokens : Option ℚ) : HttpResponse :=
  ⟨200, "Checking for new tokens..."⟩

/-- A 200 acknowledgment that background work has started. -/
def isStartedAck (r : HttpResponse) : Bool :=
  (r.status == 200) &&
    ((r.message == "Database initialization started") ||
     (r.message == "Token refresh started") ||
     (r.message == "Full database update started") ||
     (r.message == "Checking for new tokens..."))

def exceptIsOk : Except Unit (List TokenAddress) → Bool
  | Except.ok _ => true
  | Except.error _ => false

def exceptKeysOk : Except Unit (List String) → Bool
  | Except.ok _ => true
  | Except.error _ => false

/-- C8 counterexample: when the awaited discovery fetch throws,
`POST /dbinit` answers 500, not a 200 "started" acknowledgment; and with an
empty cache `POST /update-all-scores` answers without a started
acknowledgment. -/
theorem dbinit_route_answers_500 :
    (dbinitRoute ⟨fun _ => Except.error (), Except.error ()⟩ none none).status = 500 ∧
    isStartedAck (dbinitRoute ⟨fun _ => Except.error (), Except.error ()⟩ none none) = false ∧
    isStartedAck (updateAllScoresRoute ⟨fun _ => Except.ok [], Except.ok []⟩ none) = false := by
  refine ⟨rfl, ?_, ?_⟩ <;> decide

/-- C8 amended: `POST /add-new-tokens` always acknowledges with 200;
`POST /dbinit` and `POST /refresh-tokens` answer 200 with a started
acknowledgment exactly when the awaited discovery fetch succeeds, and 500
otherwise; `POST /update-all-scores` answers 200 exactly when the key
listing succeeds, with a started acknowledgment exactly when the cache is
also non-empty. -/
theorem background_routes_acknowledgment (env : HttpEnv) (p q u v : Option ℚ) :
    (isStartedAck (addNewTokensRoute env u v) = true) ∧
    ((dbinitRoute env p q).status = 200 ↔ exceptIsOk (env.discover (dbinitDays q)) = true) ∧
    (isStartedAck (dbinitRoute env p q) = true ↔
      exceptIsOk (env.discover (dbinitDays q)) = true) ∧
    ((dbinitRoute env p q).status = 500 ↔
      exceptIsOk (env.discover (dbinitDays q)) = false) ∧
    ((refreshTokensRoute env q v).status = 200 ↔
      exceptIsOk (env.discover (refreshDays q)) = true) ∧
    (isStartedAck (refreshTokensRoute env q v) = true ↔
      exceptIsOk (env.discover (refreshDays q)) = true) ∧
    ((updateAllScoresRoute env u).status = 200 ↔ exceptKeysOk env.cacheKeys = true) ∧
    (isStartedAck (updateAllScoresRoute env u) = true ↔
      ∃ ks, env.cacheKeys = Except.ok ks ∧ ks ≠ []) := by
  refine ⟨by simp [addNewTokensRoute, isStartedAck], ?_, ?_, ?_, ?_, ?_, ?_, ?_⟩
  · cases h : env.discover (dbinitDays q) <;> simp [dbinitRoute, exceptIsOk, h]
  · cases h : env.discover (dbinitDays q) <;> simp [dbinitRoute, isStartedAck, exceptIsOk, h]
  · cases h : env.discover (dbinitDays q) <;> simp [dbinitRoute, exceptIsOk, h]
  · cases h : env.discover (refreshDays q) <;> simp [refreshTokensRoute, exceptIsOk, h]
  · cases h : env.discover (refreshDays q) <;>
      simp [refreshTokensRoute, isStartedAck, exceptIsOk, h]
  · cases h : env.cacheKeys with
    | error e => simp [updateAllScoresRoute, exceptKeysOk, h]
    | ok ks =>
      by_cases hk : ks.length = 0 <;> simp [updateAllScoresRoute, exceptKeysOk, h, hk]
  · cases h : env.cacheKeys with
    | error e => simp [updateAllScoresRoute, isStartedAck, exceptKeysOk, h]
    | ok ks =>
      by_cases hk : ks.length = 0
      · have : ks = [] := List.length_eq_zero.mp hk
        subst this
        simp [updateAllScoresRoute, isStartedAck, h, hk]
      · simp [updateAllScoresRoute, isStartedAck, h, hk]
        exact List.length_eq_zero.not.mp hk

/-- Dispatch and settlement events of the per-token tasks launched by
`batch.map(async token => ...)` inside one chunk (index.ts lines 74-148). -/
inductive SEvent where
  | start (t : TokenAddress)
  | settle (t : TokenAddress)
deriving DecidableEq

/-- One token's task, abstracted to its dispatch and its settlement. -/
def tokenTrace (t : TokenAddress) : List SEvent := [SEvent.start t, SEvent.settle t]

/-- `Interleaving ls tr`: `tr` is an arbitrary interleaving of the streams
in `ls` — the event orders the single-threaded event loop can produce when
the tasks of one chunk run concurrently. -/
inductive Interleaving : List (List SEvent) → List SEvent → Prop where
  | nil (ls : List (List SEvent)) (h : ∀ l ∈ ls, l = []) : Interleaving ls []
  | cons (A : List (List SEvent)) (r : List SEvent) (B : List (List SEvent))
      (e : SEvent) (tr : List SEvent)
      (h : Interleaving (A ++ r :: B) tr) :
      Interleaving (A ++ (e :: r) :: B) (e :: tr)

/-- A trace of one `analyzeAndStoreTokens` run under the source's chunk
barrier (index.ts lines 71-148): the per-chunk segments follow each other
in list order — `await Promise.all(promises)` ends a chunk before the next
`tokens.slice` is taken — while within one chunk the token tasks interleave
arbitrarily. -/
def BatchSchedule (c : ℕ) (tokens : List TokenAddress) (tr : List SEvent) : Prop :=
  ∃ segs : List (List SEvent),
    List.Forall₂ (fun ch sg => Interleaving (ch.map tokenTrace) sg)
      (chunksOf c tokens) segs ∧
    tr = segs.flatten

/-- Bool check: in `tr`, every settlement of `a` precedes every dispatch of
`b`. -/
def settlesBeforeStarts (tr : List SEvent) (a b : TokenAddress) : Bool :=
  (List.range tr.length).all fun p =>
    (List.range tr.length).all fun q =>
      if tr[p]? = some (SEvent.settle a) ∧ tr[q]? = some (SEvent.start b) then
        decide (p < q)
      else true

/-- Bool check of the chunk barrier over a whole trace: every token of an
earlier chunk settles before any token of a later chunk starts. -/
def chunkBarrier (c : ℕ) (tokens : List TokenAddress) (tr : List SEvent) : Bool :=
  (List.range (chunksOf c tokens).length).all fun k =>
    (List.range (chunksOf c tokens).length).all fun l =>
      if k < l then
        ((chunksOf c tokens).getD k []).all fun a =>
          ((chunksOf c tokens).getD l []).all fun b => settlesBeforeStarts tr a b
      else true

theorem interleaving_perm {ls : List (List SEvent)} {tr : List SEvent}
    (h : Interleaving ls tr) : tr.Perm ls.flatten := by
  induction h with
  | nil ls h =>
    have hnil : ls.flatten = [] := by
      rw [List.flatten_eq_nil_iff]
      exact h
    rw [hnil]
  | cons A r B e tr h ih =>
    have h1 : (A ++ (e :: r) :: B).flatten = A.flatten ++ e :: (r ++ B.flatten) := by
      rw [List.flatten_append, List.flatten_cons]
      rfl
    have h2 : (A ++ r :: B).flatten = A.flatten ++ (r ++ B.flatten) := by
      rw [List.flatten_append, List.flatten_cons]
    rw [h1]
    rw [h2] at ih
    exact (ih.cons e).trans List.perm_middle.symm

theorem forall2_mem_right {α β : Type} {R : α → β → Prop} :
    ∀ {as : List α} {bs : List β}, List.Forall₂ R as bs → ∀ {b}, b ∈ bs →
      ∃ a ∈ as, R a b := by
  intro as bs h
  induction h with
  | nil => intro b hb; cases hb
  | cons hr hrest ih =>
    intro b hb
    rcases List.mem_cons.mp hb with rfl | hb
    · exact ⟨_, List.mem_cons_self _ _, hr⟩
    · rcases ih hb with ⟨a, ha, har⟩
      exact ⟨a, List.mem_cons_of_mem _ ha, har⟩

theorem interleaving_event_source {ch : List TokenAddress} {sg : List SEvent}
    (hI : Interleaving (ch.map tokenTrace) sg) {x : SEvent} (hx : x ∈ sg) :
    ∃ t ∈ ch, x ∈ tokenTrace t := by
  have hmem : x ∈ (ch.map tokenTrace).flatten := (interleaving_perm hI).mem_iff.mp hx
  rcases List.mem_flatten.mp hmem with ⟨tt, htt, hxtt⟩
  rcases List.mem_map.mp htt with ⟨t, ht, rfl⟩
  exact ⟨t, ht, hxtt⟩

theorem settle_mem_tokenTrace {a t : TokenAddress} (h : SEvent.settle a ∈ tokenTrace t) :
    a = t := by
  simp [tokenTrace] at h
  exact h

theorem start_mem_tokenTrace {b t : TokenAddress} (h : SEvent.start b ∈ tokenTrace t) :
    b = t := by
  simp [tokenTrace] at h
  exact h

theorem event_in_chunks {chs : List (List TokenAddress)} {segs : List (List SEvent)}
    (hF : List.Forall₂ (fun ch sg => Interleaving (ch.map tokenTrace) sg) chs segs)
    {x : SEvent} (hx : x ∈ segs.flatten) :
    ∃ ch ∈ chs, ∃ t ∈ ch, x ∈ tokenTrace t := by
  rcases List.mem_flatten.mp hx with ⟨sg, hsg, hxsg⟩
  rcases forall2_mem_right hF hsg with ⟨ch, hch, hI⟩
  rcases interleaving_event_source hI hxsg with ⟨t, ht, hxt⟩
  exact ⟨ch, hch, t, ht, hxt⟩

theorem getElem?_append_mem_left {A B : List SEvent} {p : ℕ} {x : SEvent}
    (h : (A ++ B)[p]? = some x) (hx : x ∉ B) : p < A.length := by
  by_contra hp
  push_neg at hp
  rw [List.getElem?_append_right hp] at h
  exact hx (List.getElem?_mem h)

theorem getElem?_append_mem_right {A B : List SEvent} {q : ℕ} {x : SEvent}
    (h : (A ++ B)[q]? = some x) (hx : x ∉ A) : A.length ≤ q := by
  by_contra hq
  push_neg at hq
  rw [List.getElem?_append_left hq] at h
  exact hx (List.getElem?_mem h)

/-- Core barrier fact: in any scheduled trace, a settlement of a chunk-`k`
token is positioned before any dispatch of a chunk-`l` token when `k < l`. -/
theorem barrier_positions {c : ℕ} {tokens : List TokenAddress} {tr : List SEvent}
    (hc : 0 < c) (hnd : tokens.Nodup) {segs : List (List SEvent)}
    (hF : List.Forall₂ (fun ch sg => Interleaving (ch.map tokenTrace) sg)
      (chunksOf c tokens) segs)
    (htr : tr = segs.flatten)
    {k l : ℕ} (hkl : k < l) (hl : l < (chunksOf c tokens).length)
    {a b : TokenAddress}
    (ha : a ∈ (chunksOf c tokens).getD k [])
    (hb : b ∈ (chunksOf c tokens).getD l [])
    {p q : ℕ}
    (hp : tr[p]? = some (SEvent.settle a))
    (hq : tr[q]? = some (SEvent.start b)) :
    p < q := by
  have hk : k < (chunksOf c tokens).length := lt_trans hkl hl
  have hgetk : (chunksOf c tokens).getD k [] = (chunksOf c tokens).get ⟨k, hk⟩ := by
    rw [List.getD_eq_getElem?_getD, List.getElem?_eq_getElem hk]
    rfl
  have hgetl : (chunksOf c tokens).getD l [] = (chunksOf c tokens).get ⟨l, hl⟩ := by
    rw [List.getD_eq_getElem?_getD, List.getElem?_eq_getElem hl]
    rfl
  rw [hgetk] at ha
  rw [hgetl] at hb
  have hflat : (chunksOf c tokens).flatten = tokens := chunksOf_flatten hc tokens
  have hnd2 : (chunksOf c tokens).flatten.Nodup := by rw [hflat]; exact hnd
  have hdisj : (chunksOf c tokens).Pairwise List.Disjoint := (List.nodup_flatten.mp hnd2).2
  have hdisj2 : ((chunksOf c tokens).take (k+1) ++ (chunksOf c tokens).drop (k+1)).Pairwise
      List.Disjoint := by
    rw [List.take_append_drop]
    exact hdisj
  have hcross := (List.pairwise_append.mp hdisj2).2.2
  have hchk : (chunksOf c tokens).get ⟨k, hk⟩ ∈ (chunksOf c tokens).take (k+1) := by
    have h1 : ((chunksOf c tokens).take (k+1))[k]? =
        some ((chunksOf c tokens).get ⟨k, hk⟩) := by
      rw [List.getElem?_take_of_lt (Nat.lt_succ_self k), List.getElem?_eq_getElem hk]
      rfl
    exact List.getElem?_mem h1
  have hchl : (chunksOf c tokens).get ⟨l, hl⟩ ∈ (chunksOf c tokens).drop (k+1) := by
    have hadd : (k+1) + (l - (k+1)) = l := by omega
    have h1 : ((chunksOf c tokens).drop (k+1))[l - (k+1)]? =
        some ((chunksOf c tokens).get ⟨l, hl⟩) := by
      rw [List.getElem?_drop, hadd, List.getElem?_eq_getElem hl]
      rfl
    exact List.getElem?_mem h1
  have hFtake := List.forall₂_take (k+1) hF
  have hFdrop := List.forall₂_drop (k+1) hF
  have htr2 : tr = (segs.take (k+1)).flatten ++ (segs.drop (k+1)).flatten := by
    rw [htr]
    conv_lhs => rw [← List.take_append_drop (k+1) segs]
    rw [List.flatten_append]
  have hsettleB : SEvent.settle a ∉ (segs.drop (k+1)).flatten := by
    intro hmem
    rcases event_in_chunks hFdrop hmem with ⟨ch, hch, t, ht, hxt⟩
    have hat : a = t := settle_mem_tokenTrace hxt
    exact hcross _ hchk _ hch ha (hat ▸ ht)
  have hstartA : SEvent.start b ∉ (segs.take (k+1)).flatten := by
    intro hmem
    rcases event_in_chunks hFtake hmem with ⟨ch, hch, t, ht, hxt⟩
    have hbt : b = t := start_mem_tokenTrace hxt
    exact hcross _ hch _ hchl (hbt ▸ ht) hb
  rw [htr2] at hp hq
  have hpA := getElem?_append_mem_left hp hsettleB
  have hqB := getElem?_append_mem_right hq hstartA
  omega

theorem chunksOfAux_nil (c n : ℕ) : chunksOfAux c n [] = [] := by
  cases n <;> rfl

theorem chunksOfAux_dropLast_length (c : ℕ) (hc : 0 < c) :
    ∀ (n : ℕ) (l : List TokenAddress), l.length ≤ n →
      ∀ ch ∈ (chunksOfAux c n l).dropLast, ch.length = c := by
  intro n
  induction n with
  | zero =>
    intro l hl
    have : l = [] := List.length_eq_zero.mp (Nat.le_zero.mp hl)
    subst this
    intro ch hch
    cases hch
  | succ n ih =>
    intro l hl
    match l with
    | [] => intro ch hch; cases hch
    | x :: xs =>
      rw [chunksOfAux]
      cases hrest : chunksOfAux c n ((x :: xs).drop c) with
      | nil => intro ch hch; cases hch
      | cons y ys =>
        have hdropne : (x :: xs).drop c ≠ [] := by
          intro hcon
          rw [hcon, chunksOfAux_nil] at hrest
          cases hrest
        have hlen : c < (x :: xs).length := by
          by_contra hcon
          push_neg at hcon
          exact hdropne (List.drop_eq_nil_iff.mpr hcon)
        intro ch hch
        rw [List.dropLast_cons₂] at hch
        rcases List.mem_cons.mp hch with rfl | hch
        · rw [List.length_take]
          omega
        · have hdlen : ((x :: xs).drop c).length ≤ n := by
            rw [List.length_drop]
            have : 0 < (x :: xs).length := by simp
            omega
          have := ih ((x :: xs).drop c) hdlen ch
          rw [hrest] at this
          exact this hch

theorem chunksOf_dropLast_length {c : ℕ} (hc : 0 < c) (l : List TokenAddress) :
    ∀ ch ∈ (chunksOf c l).dropLast, ch.length = c :=
  chunksOfAux_dropLast_length c hc l.length l (Nat.le_refl _)

/-- C4: `analyzeAndStoreTokens` splits the token list into consecutive
chunks of the concurrency size `c` (all full except possibly the last), and
the `await Promise.all` barrier totally orders chunks in every trace: under
any interleaving of the concurrently dispatched tasks inside each chunk,
every settlement of a chunk-`k` token precedes every dispatch of a
chunk-`l` token whenever `k < l` — so with `c = 2` and four tokens, tokens
3 and 4 start only after tokens 1 and 2 have both settled. -/
theorem batch_chunk_barrier (c : ℕ) (tokens : List TokenAddress) (tr : List SEvent)
    (hc : 0 < c) (hnd : tokens.Nodup) (htr : BatchSchedule c tokens tr) :
    (chunksOf c tokens).flatten = tokens ∧
    (∀ ch ∈ (chunksOf c tokens).dropLast, ch.length = c) ∧
    chunkBarrier c tokens tr = true := by
  refine ⟨chunksOf_flatten hc tokens, chunksOf_dropLast_length hc tokens, ?_⟩
  rcases htr with ⟨segs, hF, htreq⟩
  rw [chunkBarrier, List.all_eq_true]
  intro k hk
  rw [List.all_eq_true]
  intro l hl
  rw [List.mem_range] at hk hl
  by_cases hkl : k < l
  · rw [if_pos hkl, List.all_eq_true]
    intro a ha
    rw [List.all_eq_true]
    intro b hb
    rw [settlesBeforeStarts, List.all_eq_true]
    intro p hp
    rw [List.all_eq_true]
    intro q hq
    by_cases hcond : tr[p]? = some (SEvent.settle a) ∧ tr[q]? = some (SEvent.start b)
    · rw [if_pos hcond]
      exact decide_eq_true
        (barrier_positions hc hnd hF htreq hkl hl ha hb hcond.1 hcond.2)
    · rw [if_neg hcond]
  · rw [if_neg hkl]

/-- C1: for every metrics input, `calculateTrendingScore` returns exactly
the spec's composite formula value — the rounding of the clamped weighted
sum — and on the spec's worked example it returns 47. -/
theorem trending_score_matches_spec_formula :
    (∀ m : TokenMetrics, calculateTrendingScore m = specCompositeScore m) ∧
    calculateTrendingScore exampleMetrics = 47 :=
  ⟨fun m => clamp_round_comm (rawTrendingScore m), calculateTrendingScore_example⟩

theorem interleaving_nil_cons (ls : List (List SEvent)) (tr : List SEvent)
    (h : Interleaving ls tr) : Interleaving ([] :: ls) tr := by
  induction h with
  | nil ls h =>
    refine Interleaving.nil ([] :: ls) ?_
    intro l hl
    rcases List.mem_cons.mp hl with rfl | hl
    · rfl
    · exact h l hl
  | cons A r B e tr h ih =>
    exact Interleaving.cons ([] :: A) r B e tr ih

theorem interleaving_append_head (l : List SEvent) (ls : List (List SEvent))
    (tr : List SEvent) (h : Interleaving ls tr) : Interleaving (l :: ls) (l ++ tr) := by
  induction l with
  | nil => exact interleaving_nil_cons ls tr h
  | cons e l ih => exact Interleaving.cons [] l ls e (l ++ tr) ih

/-- The fully sequential schedule is one admissible interleaving. -/
theorem interleaving_self (ls : List (List SEvent)) : Interleaving ls ls.flatten := by
  induction ls with
  | nil => exact Interleaving.nil [] (fun l hl => absurd hl (List.not_mem_nil l))
  | cons l ls ih => exact interleaving_append_head l ls ls.flatten ih

def tok1 : TokenAddress :=
  { address := "0xa1", chainId := 1, chainName := "Ethereum", firstSeenBlock := 100,
    firstSeenTimestamp := 1000, ageInHours := 2, transactionHash := "0xh1" }

def tok2 : TokenAddress := { tok1 with address := "0xa2" }

def tok3 : TokenAddress := { tok1 with address := "0xa3" }

def tok4 : TokenAddress := { tok1 with address := "0xa4" }

/-- Same address as `tok1` but on a different chain. -/
def tok5 : TokenAddress := { tok1 with chainId := 8453, chainName := "Base" }

def txW : Transaction := { chainId := 1, txFrom := "0xf1", txTo := "0xf2", value := 5 }

def tdW : TokenData := { priceChange24h := 10 }

/-- Collaborators whose fetches always throw. -/
def envThrow : Env :=
  { getThrows := fun _ => false, fetchTx := fun _ => Except.error (),
    fetchMeta := fun _ => Except.error (), analyze := fun _ _ => exampleMetrics,
    setThrows := fun _ => false, now := 7 }

/-- Healthy collaborators. -/
def envOk : Env :=
  { getThrows := fun _ => false, fetchTx := fun _ => Except.ok [txW],
    fetchMeta := fun _ => Except.ok (some tdW), analyze := fun _ _ => exampleMetrics,
    setThrows := fun _ => false, now := 7 }

/-- Collaborators that answer but return no data. -/
def envEmpty : Env :=
  { getThrows := fun _ => false, fetchTx := fun _ => Except.ok [],
    fetchMeta := fun _ => Except.ok none, analyze := fun _ _ => exampleMetrics,
    setThrows := fun _ => false, now := 7 }

def cacheEmpty : String → Option CachedTokenRecord := fun _ => none

def recW : CachedTokenRecord := mkRecord envOk tok1 exampleMetrics

def cacheHit : String → Option CachedTokenRecord :=
  fun a => if a = "0xa1" then some recW else none

def stateEmpty : BatchState := initState cacheEmpty

def stateHit : BatchState := initState cacheHit

def segsW : List (List SEvent) :=
  [[SEvent.start tok1, SEvent.settle tok1, SEvent.start tok2, SEvent.settle tok2],
   [SEvent.start tok3, SEvent.settle tok3, SEvent.start tok4, SEvent.settle tok4]]

def trW : List SEvent := segsW.flatten

theorem batch_counters_balance_witness :
    0 < 2 ∧
    ((analyzeAndStoreTokens envThrow cacheEmpty [tok1, tok2] false 2).processed =
        [tok1, tok2].length ∧
      (analyzeAndStoreTokens envThrow cacheEmpty [tok1, tok2] false 2).processed =
        (analyzeAndStoreTokens envThrow cacheEmpty [tok1, tok2] false 2).updated +
        (analyzeAndStoreTokens envThrow cacheEmpty [tok1, tok2] false 2).skipped +
        (analyzeAndStoreTokens envThrow cacheEmpty [tok1, tok2] false 2).noData +
        (analyzeAndStoreTokens envThrow cacheEmpty [tok1, tok2] false 2).failed ∧
      (∀ (s : BatchState) (t : TokenAddress),
        (processOne envThrow false s t).processed = s.processed + 1 ∧
        (processOne envThrow false s t).updated + (processOne envThrow false s t).skipped +
          (processOne envThrow false s t).noData + (processOne envThrow false s t).failed =
          s.updated + s.skipped + s.noData + s.failed + 1)) :=
  ⟨by decide, batch_counters_balance envThrow cacheEmpty [tok1, tok2] false 2 (by decide)⟩

theorem batch_chunk_barrier_witness :
    (0 < 2 ∧ ([tok1, tok2, tok3, tok4] : List TokenAddress).Nodup ∧
      BatchSchedule 2 [tok1, tok2, tok3, tok4] trW) ∧
    ((chunksOf 2 [tok1, tok2, tok3, tok4]).flatten = [tok1, tok2, tok3, tok4] ∧
      (∀ ch ∈ (chunksOf 2 [tok1, tok2, tok3, tok4]).dropLast, ch.length = 2) ∧
      chunkBarrier 2 [tok1, tok2, tok3, tok4] trW = true) := by
  have hnd : ([tok1, tok2, tok3, tok4] : List TokenAddress).Nodup := by decide
  have hch : chunksOf 2 [tok1, tok2, tok3, tok4] = [[tok1, tok2], [tok3, tok4]] := rfl
  have hsched : BatchSchedule 2 [tok1, tok2, tok3, tok4] trW := by
    refine ⟨segsW, ?_, rfl⟩
    rw [hch]
    refine List.Forall₂.cons ?_ (List.Forall₂.cons ?_ List.Forall₂.nil)
    · exact interleaving_self ([tok1, tok2].map tokenTrace)
    · exact interleaving_self ([tok3, tok4].map tokenTrace)
  exact ⟨⟨by decide, hnd, hsched⟩,
    batch_chunk_barrier 2 [tok1, tok2, tok3, tok4] trW (by decide) hnd hsched⟩

theorem cache_skip_policy_witness :
    (envOk.getThrows tok1.address = false ∧ stateHit.cache tok1.address = some recW) ∧
    processOne envOk false stateHit tok1 =
      { stateHit with skipped := stateHit.skipped + 1,
                      processed := stateHit.processed + 1,
                      trace := stateHit.trace ++ [CallEvent.cacheGet tok1.address] } :=
  ⟨⟨rfl, rfl⟩, cache_skip_policy envOk stateHit tok1 recW rfl rfl⟩

theorem noData_policy_witness :
    (envEmpty.getThrows tok1.address = false ∧
      ((stateEmpty.cache tok1.address).isSome && !false) = false ∧
      envEmpty.fetchTx tok1.address = Except.ok [] ∧
      envEmpty.fetchMeta tok1.address = Except.ok none ∧
      (([] : List Transaction) = [] ∨ (none : Option TokenData) = none)) ∧
    processOne envEmpty false stateEmpty tok1 =
      { stateEmpty with noData := stateEmpty.noData + 1,
                        processed := stateEmpty.processed + 1,
                        trace := stateEmpty.trace ++ [CallEvent.cacheGet tok1.address,
                          CallEvent.txFetch tok1.address,
                          CallEvent.metaFetch tok1.address] } :=
  ⟨⟨rfl, rfl, rfl, rfl, Or.inl rfl⟩,
    noData_policy envEmpty false stateEmpty tok1 [] none rfl rfl rfl rfl (Or.inl rfl)⟩

theorem per_token_failure_isolated_witness :
    (0 < 1 ∧ (runPipeline envThrow false stateEmpty.cache tok1).outcome = Outcome.failedO) ∧
    ((processOne envThrow false stateEmpty tok1).failed = stateEmpty.failed + 1 ∧
      (processOne envThrow false stateEmpty tok1).updated = stateEmpty.updated ∧
      (processOne envThrow false stateEmpty tok1).skipped = stateEmpty.skipped ∧
      (processOne envThrow false stateEmpty tok1).noData = stateEmpty.noData ∧
      (processOne envThrow false stateEmpty tok1).processed = stateEmpty.processed + 1 ∧
      (processOne envThrow false stateEmpty tok1).cache = stateEmpty.cache ∧
      countLogFails (processOne envThrow false stateEmpty tok1).trace =
        countLogFails stateEmpty.trace + (if stateEmpty.failed + 1 ≤ 5 then 1 else 0) ∧
      (analyzeAndStoreTokens envThrow cacheEmpty [tok1] false 1).processed =
        [tok1].length ∧
      countLogFails (analyzeAndStoreTokens envThrow cacheEmpty [tok1] false 1).trace =
        min (analyzeAndStoreTokens envThrow cacheEmpty [tok1] false 1).failed 5) :=
  ⟨⟨by decide, rfl⟩,
    per_token_failure_isolated envThrow cacheEmpty [tok1] false 1 stateEmpty tok1
      (by decide) rfl⟩

theorem cache_write_keyed_by_address_witness :
    (tok5.address = tok1.address ∧ tok1.chainId ≠ tok5.chainId ∧
      envOk.getThrows tok1.address = false ∧
      envOk.fetchTx tok1.address = Except.ok [txW] ∧
      ([txW] : List Transaction).isEmpty = false ∧
      envOk.fetchMeta tok1.address = Except.ok (some tdW) ∧
      envOk.setThrows tok1.address = false) ∧
    ((processOne envOk true stateEmpty tok1).cache tok1.address =
        some (mkRecord envOk tok1 (envOk.analyze [txW] tdW)) ∧
      (processOne envOk true (processOne envOk true stateEmpty tok1) tok5).cache
          tok1.address =
        some (mkRecord envOk tok5 (envOk.analyze [txW] tdW)) ∧
      (mkRecord envOk tok5 (envOk.analyze [txW] tdW)).chainId = tok5.chainId ∧
      (mkRecord envOk tok5 (envOk.analyze [txW] tdW)).chainId ≠ tok1.chainId ∧
      (∀ x, x ≠ tok1.address →
        (processOne envOk true (processOne envOk true stateEmpty tok1) tok5).cache x =
          stateEmpty.cache x)) :=
  ⟨⟨rfl, by decide, rfl, rfl, rfl, rfl, rfl⟩,
    cache_write_keyed_by_address envOk stateEmpty tok1 tok5 [txW] tdW rfl (by decide)
      rfl rfl rfl rfl rfl⟩
